import Mathlib

/-!
Shallow embedding of the orchestration core of the Advanced Research Tool
(`assets/app.js`): the `AdvancedResearcher` class (logging, completion
gateway, perspective parsing, the four research phases and cancellation)
together with the configuration constants it reads.

Modelling conventions:
* The mutable instance state of a run (`active` flag, `researchLog` buffer,
  the constraints text, and the stream of wall-clock timestamps read by
  `log`) is an explicit `RState` record; every `async` method becomes a
  function `RState → Except Fault α × RState`, so a thrown JS `Error`
  is `Except.error` while state mutations performed before the throw are
  kept (exactly JS semantics).
* The single network suspension point (`fetch`) is driven by an oracle
  value `NetOutcome` supplied per call; issuing the request is recorded in
  `RState.requests` together with the payload fields that depend on the
  call site (`label`, `max_tokens`, `temperature`).
* Sampling temperatures are numeric literals in the source (0.2, 0.15, …);
  they are embedded scaled by 100 as naturals (20, 15, …) since they are
  only ever selected from a fixed table and placed into the payload.
* JS strings are Lean `String`, `slice(0, n)` is `List.take n` on the
  character list, and `String.prototype.trim` / the regex character classes
  `\s`, `\d` are modelled with `Char.isWhitespace` / `Char.isDigit`
  (faithful for the ASCII text the tool manipulates).
* UI observer callbacks (`uiHooks`) and `console.log` are external
  collaborators with no effect on run state and are not modelled.
-/

namespace ResearchTool

/-- A thrown JS `Error`, reduced to its message. -/
structure Fault where
  message : String
  deriving Repr, DecidableEq

/-- One chat message `{role, content}` of the request payload. -/
structure Message where
  role : String
  content : String
  deriving Repr, DecidableEq

/-- The parsed JSON body of a successful completion response, reduced to the
shape `safeGetFirstChoiceContent` inspects: `content` is `some c` exactly
when `choices[0].message.content` exists and is a string `c`. -/
structure ApiData where
  content : Option String
  deriving Repr, DecidableEq

/-- Oracle for the one network operation of `callOpenRouter`: which of the
code paths following `fetch` the external world selects. -/
inductive NetOutcome where
  | timeout
  | netError (msg : String)
  | httpError (status : Nat) (statusText : String) (errorDetail : Option String)
  | parseError (msg : String)
  | ok (data : ApiData)
  deriving Repr, DecidableEq

/-- Phase-1 result `{ analysis }`. -/
structure TopicAnalysis where
  analysis : String
  deriving Repr, DecidableEq

/-- Per-perspective result of the Phase-3 sub-pipeline.  `error = some e`
is the failure marker set by `deepResearch`'s catch block. -/
structure PerspectiveResult where
  initial_research : String
  critical_analysis : String
  identified_gaps : String
  synthesis : String
  error : Option String
  deriving Repr, DecidableEq

/-- The mutable state of one `AdvancedResearcher` instance, plus the oracle
for wall-clock timestamps (`clock` applied to the running `tick`) and the
trace `requests` of issued network requests `(label, max_tokens,
temperature)`. `constraints` is the immutable constructor argument. -/
structure RState where
  active : Bool
  researchLog : List String
  constraints : String
  requests : List (String × Nat × Nat)
  clock : Nat → String
  tick : Nat

/-- `CONFIG.LOG_MAX_ENTRIES`. -/
def LOG_MAX_ENTRIES : Nat := 500

/-- A stateful, fallible computation of the researcher: explicit state
passing for the class instance, `Except` for thrown errors.  State changes
made before a throw are preserved, as in JS. -/
abbrev RM (α : Type) : Type := RState → Except Fault α × RState

def rmPure {α : Type} (a : α) : RM α := fun st => (Except.ok a, st)

def rmThrow {α : Type} (msg : String) : RM α := fun st => (Except.error ⟨msg⟩, st)

def rmBind {α β : Type} (m : RM α) (f : α → RM β) : RM β := fun st =>
  match m st with
  | (Except.ok a, st') => f a st'
  | (Except.error e, st') => (Except.error e, st')

/-- JS `try { m } catch`: every fault is caught and reified. -/
def rmTry {α : Type} (m : RM α) : RM (Except Fault α) := fun st =>
  match m st with
  | (Except.ok a, st') => (Except.ok (Except.ok a), st')
  | (Except.error e, st') => (Except.ok (Except.error e), st')

def rmGetConstraints : RM String := fun st => (Except.ok st.constraints, st)

def rmGetLog : RM (List String) := fun st => (Except.ok st.researchLog, st)

/-- The message of the error thrown by `ensureActive`. -/
def cancelMessage : String := "Research run was cancelled or is no longer active."

def cancelFault : Fault := ⟨cancelMessage⟩

/-- `cancel()`: sets `active = false` unconditionally. -/
def cancel (st : RState) : RState := { st with active := false }

/-- `ensureActive()`: fail fast when the run is no longer active. -/
def ensureActive : RM Unit := fun st =>
  if st.active then (Except.ok (), st) else (Except.error cancelFault, st)

/-- JS `s.slice(0, n)` for `n ≥ 0`. -/
def jsSlice (s : String) (n : Nat) : String := ⟨s.data.take n⟩

/-- `truncateForLog(message, maxLen)`. -/
def truncateForLog (message : String) (maxLen : Nat) : String :=
  if message = "" then ""
  else if maxLen < message.length then jsSlice message (maxLen - 3) ++ "..."
  else message

/-- `level.toUpperCase()`. -/
def strUpper (s : String) : String := ⟨s.data.map Char.toUpper⟩

/-- The log line `` `[${timestamp}] [${level.toUpperCase()}] ${message}` ``. -/
def formatEntry (timestamp level message : String) : String :=
  "[" ++ timestamp ++ "] [" ++ strUpper level ++ "] " ++ message

/-- The buffer update of `log`: push at the back, then evict the oldest
entry from the front when the capacity is exceeded. -/
def pushBounded (buf : List String) (entry : String) : List String :=
  let b := buf ++ [entry]
  if LOG_MAX_ENTRIES < b.length then b.drop 1 else b

/-- The state change of a successful `log(message, level)` call. -/
def logSt (st : RState) (level message : String) : RState :=
  { st with
    researchLog := pushBounded st.researchLog
      (formatEntry (st.clock st.tick) level message)
    tick := st.tick + 1 }

/-- `log(message, level)`: re-checks `active`, formats and appends the
entry (evicting from the front past capacity).  Observer forwarding and
`console.log` touch no run state and are not modelled. -/
def logM (message level : String) : RM Unit := fun st =>
  if st.active then (Except.ok (), logSt st level message)
  else (Except.error cancelFault, st)

/-- `buildUserPrompt(base, extraSections)`. -/
def buildUserPrompt (base : String) (extraSections : List String) : String :=
  String.intercalate "\n\n" (base :: extraSections)

/-- Records that `fetch` was issued with the given payload fields. -/
def fetchTick (label : String) (maxTokens temperature : Nat) : RM Unit := fun st =>
  (Except.ok (), { st with requests := st.requests ++ [(label, maxTokens, temperature)] })

/-- The fixed message of `safeGetFirstChoiceContent`'s error. -/
def malformedMessage : String :=
  "Malformed API response: missing choices[0].message.content"

/-- The message of the internal-usage error for an empty message list. -/
def emptyMessagesMessage : String := "Internal error: messages array is empty."

/-- The HTTP-fault message built for a non-2xx response:
`` `${label} API error: ${response.status} ${statusText}${errorDetail}` ``
with `statusText` defaulted to `'Unknown error'` and `errorDetail` either
absent or `` ` Details: ${JSON.stringify(...)}` `` (the stringified field is
the oracle's `detail`). -/
def httpErrorMessage (label : String) (status : Nat) (statusText : String)
    (detail : Option String) : String :=
  label ++ (" API error: " ++ toString status ++ " "
    ++ (if statusText = "" then "Unknown error" else statusText)
    ++ (match detail with
        | some d => " Details: " ++ d
        | none => ""))

/-- Outcome handling of `callOpenRouter` after `fetch` returns, one branch
per classified outcome.  Timeout and network errors are re-thrown without
logging; HTTP and parse faults are logged at error level first; a missing
content field raises `safeGetFirstChoiceContent`'s fixed error. -/
def handleNet (label : String) (net : NetOutcome) : RM String :=
  match net with
  | NetOutcome.timeout => rmThrow (label ++ " timed out after 180s.")
  | NetOutcome.netError m => rmThrow (label ++ (" network error: " ++ m))
  | NetOutcome.httpError status statusText detail =>
      let msg := httpErrorMessage label status statusText detail
      rmBind (logM msg "error") (fun _ => rmThrow msg)
  | NetOutcome.parseError m =>
      let msg := label ++ (" failed to parse response JSON: " ++ m)
      rmBind (logM msg "error") (fun _ => rmThrow msg)
  | NetOutcome.ok data =>
      match data.content with
      | none => rmThrow malformedMessage
      | some c =>
          rmBind (logM (label ++ ": response received.") "info") (fun _ => rmPure c)

/-- `callOpenRouter(messages, {maxTokens, temperature, label})`:
active check, non-empty messages check, the "contacting model" log, the
single network operation, then outcome classification. -/
def callOpenRouter (messages : List Message) (maxTokens temperature : Nat)
    (label : String) (net : NetOutcome) : RM String :=
  rmBind ensureActive (fun _ =>
    if messages.isEmpty then rmThrow emptyMessagesMessage
    else
      rmBind (logM (label ++ ": contacting model...") "info") (fun _ =>
        rmBind (fetchTick label maxTokens temperature) (fun _ =>
          handleNet label net)))

/-! ### Perspective parser (`parsePerspectives`) -/

/-- JS `raw.split('\n')` on the character list: `n` separators yield
`n + 1` pieces, empty pieces included. -/
def splitOnNl : List Char → List (List Char)
  | [] => [[]]
  | c :: rest =>
      if c = '\n' then [] :: splitOnNl rest
      else
        match splitOnNl rest with
        | [] => [[c]]
        | h :: t => (c :: h) :: t

/-- The character-list body of `String.prototype.trim`. -/
def trimChars (cs : List Char) : List Char :=
  ((cs.dropWhile Char.isWhitespace).reverse.dropWhile Char.isWhitespace).reverse

/-- The regex match `/^(\d+)[.)]\s*(.+)$/` applied to a line: a non-empty
digit prefix, one of `.` or `)`, optional whitespace, then a non-empty
remainder which is capture group 2. -/
def numberedRest (cs : List Char) : Option (List Char) :=
  let ds := cs.takeWhile Char.isDigit
  let rest := cs.dropWhile Char.isDigit
  if ds.isEmpty then none
  else
    match rest with
    | [] => none
    | c :: rest' =>
        if c = '.' ∨ c = ')' then
          let r := rest'.dropWhile Char.isWhitespace
          if r.isEmpty then none else some r
        else none

/-- JS `raw.split(/\n{2,}/)`: split on maximal runs of two or more
newlines.  `acc` holds the current block reversed; `pend` counts newlines
seen but not yet classified as separator or block content. -/
def splitParasAux : List Char → List Char → Nat → List (List Char)
  | [], acc, pend =>
      if 2 ≤ pend then [acc.reverse, []]
      else [acc.reverse ++ List.replicate pend '\n']
  | c :: rest, acc, pend =>
      if c = '\n' then splitParasAux rest acc (pend + 1)
      else if 2 ≤ pend then acc.reverse :: splitParasAux rest [c] 0
      else splitParasAux rest (c :: (List.replicate pend '\n' ++ acc)) 0

def splitParas (raw : String) : List (List Char) := splitParasAux raw.data [] 0

/-- `parsePerspectives(raw)`: per line, trim, skip blanks, keep the trimmed
capture of the numbered-list regex; when no line matched, fall back to
paragraph blocks split on runs of two-or-more newlines, trimmed, with
empty blocks discarded. -/
def parsePerspectives (raw : String) : List String :=
  let lines := splitOnNl raw.data
  let results := lines.filterMap (fun line =>
    let trimmed := trimChars line
    if trimmed.isEmpty then none
    else (numberedRest trimmed).map (fun r => (⟨trimChars r⟩ : String)))
  if results.isEmpty then
    ((splitParas raw).map (fun p => (⟨trimChars p⟩ : String))).filter
      (fun s => !s.isEmpty)
  else results

/-! ### Phase 1: `analyzeTopic` -/

def analyzeSections : List String :=
  ["Provide:",
   "1. TopicCQ: complexity assessment (scale 1-10) with justification.",
   "2. Key subtopics and core questions.",
   "3. Suitable methodologies and evidence types.",
   "4. Critical uncertainties and assumptions.",
   "5. Interdisciplinary links worth exploring.",
   "6. Current research gaps & data limitations.",
   "",
   "Be structured, concise, and decision-useful."]

def analyzeFallback : String := "No analysis returned by the model."

/-- `analyzeTopic(topic)`; an empty model response is replaced by the fixed
fallback text (`analysis || '...'`). -/
def analyzeTopic (topic : String) (net : NetOutcome) : RM TopicAnalysis :=
  rmBind ensureActive (fun _ =>
  rmBind (logM "Phase 1: Analyzing research topic..." "info") (fun _ =>
  let base := "Perform a comprehensive analysis of the research topic: \"" ++ topic ++ "\""
  let prompt := buildUserPrompt base analyzeSections
  rmBind (callOpenRouter [⟨"user", prompt⟩] 2000 15 "Topic analysis" net) (fun analysis =>
  rmBind (logM "Topic analysis completed." "info") (fun _ =>
  rmPure ⟨if analysis = "" then analyzeFallback else analysis⟩))))

/-! ### Phase 2: `gatherPerspectives` -/

def gatherSections (iterations : Nat) : List String :=
  ["Generate between " ++ toString (iterations + 2) ++ " and "
     ++ toString (iterations * 3) ++ " distinct, high-quality research perspectives.",
   "Each perspective must be:",
   "- Clearly named (start with a bold title).",
   "- Methodologically sound and academically relevant.",
   "- Non-overlapping and genuinely distinct.",
   "- Capable of yielding substantial insight.",
   "",
   "Return as a numbered list: \"1. Title: short rationale\"."]

def emptyGenerationMessage : String :=
  "No perspectives could be parsed from the model response."

/-- `gatherPerspectives(topic, topicAnalysis, iterations)`: one gateway
call, parse, fatal fault on an empty parse, then truncation to
`Math.max(iterations, 3)` perspectives. -/
def gatherPerspectives (topic : String) (topicAnalysis : TopicAnalysis)
    (iterations : Nat) (net : NetOutcome) : RM (List String) :=
  rmBind ensureActive (fun _ =>
  rmBind (logM "Phase 2: Generating research perspectives..." "info") (fun _ =>
  let baseAnalysis := topicAnalysis.analysis
  let prompt := buildUserPrompt
    ("Based on the topic \"" ++ topic ++ "\" and the following analysis (if any):\n"
      ++ jsSlice baseAnalysis 2000)
    (gatherSections iterations)
  rmBind (callOpenRouter [⟨"user", prompt⟩] 3000 35 "Perspective generation" net) (fun raw =>
  let perspectives := parsePerspectives raw
  if perspectives.isEmpty then rmThrow emptyGenerationMessage
  else
    let maxPerspectives := max iterations 3
    let finalPerspectives := perspectives.take maxPerspectives
    rmBind (logM ("Generated " ++ toString finalPerspectives.length
        ++ " research perspectives.") "info") (fun _ =>
    rmPure finalPerspectives))))

/-! ### Phase 3: `researchSinglePerspective` and `deepResearch` -/

/-- The `maxTokens` selected from the depth (default branch 3000). -/
def depthMaxTokens (depth : String) : Nat :=
  if depth = "extreme" then 6000
  else if depth = "advanced" then 4000
  else 3000

/-- The sampling temperature (scaled by 100) selected from the depth
(default branch 0.22). -/
def depthTemperature (depth : String) : Nat :=
  if depth = "extreme" then 12
  else if depth = "advanced" then 18
  else 22

def initialSections : List String :=
  ["Requirements:",
   "- Outline key theories, models, and frameworks.",
   "- Summarize major findings and representative studies.",
   "- Include concrete examples and (approximate) citations where appropriate.",
   "- Identify important datasets, benchmarks, or empirical evidence.",
   "- Highlight leading researchers, institutions, and recent developments (last 2-3 years).",
   "- Note practical applications, where relevant.",
   "- Avoid vague statements; prefer specific details."]

def criticalSections : List String :=
  ["Provide:",
   "1. Strengths and weaknesses of the arguments and evidence.",
   "2. Evaluation of methodological quality and limitations.",
   "3. Biases and threats to validity.",
   "4. Comparison with mainstream / consensus views where applicable.",
   "5. Reproducibility and robustness considerations."]

def gapSections (initialResearch criticalAnalysis : String) : List String :=
  ["Research overview:\n" ++ jsSlice initialResearch 1500 ++ "...",
   "Critical analysis:\n" ++ jsSlice criticalAnalysis 1500 ++ "...",
   "",
   "Identify:",
   "1. Concrete research gaps and unanswered questions.",
   "2. Opportunities for novel contributions (theoretical & applied).",
   "3. Methodological improvements or new study designs.",
   "4. Practical & policy implications.",
   "5. Interdisciplinary collaboration opportunities.",
   "Be specific and actionable. Structure points clearly."]

def synthSections (initialResearch criticalAnalysis identifiedGaps : String) : List String :=
  ["Base your synthesis on:",
   "- Research overview: " ++ jsSlice initialResearch 1500 ++ "...",
   "- Critical analysis: " ++ jsSlice criticalAnalysis 1000 ++ "...",
   "- Gaps & opportunities: " ++ jsSlice identifiedGaps 1000 ++ "...",
   "",
   "Provide:",
   "1. Integrated narrative with key insights.",
   "2. Assessment of current evidence quality.",
   "3. Priority list of research directions (High/Medium/Low).",
   "4. Suggested methodologies & datasets for top priorities.",
   "5. Practical applications and expected impact.",
   "Make it clear, structured, and non-redundant."]

/-- `researchSinglePerspective(perspective, depth, labelPrefix)`: the four
sequential gateway calls of the per-perspective sub-pipeline; the depth
selects only the budget of call 1; the returned record's `error` is
absent. -/
def researchSinglePerspective (perspective depth labelPre : String)
    (net : Nat → NetOutcome) : RM PerspectiveResult :=
  rmBind ensureActive (fun _ =>
  rmBind rmGetConstraints (fun constraints =>
  let constraintSuffix :=
    if constraints = "" then ""
    else "\n\nAdditionally, respect these constraints / addons:\n" ++ constraints
  let initialPrompt := buildUserPrompt
    ("Conduct a thorough investigation into this research perspective:\n\""
      ++ perspective ++ "\"" ++ constraintSuffix)
    initialSections
  rmBind (callOpenRouter [⟨"user", initialPrompt⟩] (depthMaxTokens depth)
      (depthTemperature depth) (labelPre ++ " – Initial research") (net 0)) (fun initialResearch =>
  let criticalPrompt := buildUserPrompt
    ("Critically evaluate the following research overview for \"" ++ perspective
      ++ "\":\n" ++ jsSlice initialResearch 2500)
    criticalSections
  rmBind (callOpenRouter [⟨"user", criticalPrompt⟩] 2500 15
      (labelPre ++ " – Critical analysis") (net 1)) (fun criticalAnalysis =>
  let gapPrompt := buildUserPrompt
    ("Using the perspective \"" ++ perspective
      ++ "\", the research overview, and its critical evaluation:")
    (gapSections initialResearch criticalAnalysis)
  rmBind (callOpenRouter [⟨"user", gapPrompt⟩] 2500 25
      (labelPre ++ " – Gap analysis") (net 2)) (fun identifiedGaps =>
  let synthesisPrompt := buildUserPrompt
    ("Synthesize a cohesive view for the perspective \"" ++ perspective ++ "\".")
    (synthSections initialResearch criticalAnalysis identifiedGaps)
  rmBind (callOpenRouter [⟨"user", synthesisPrompt⟩] 3000 14
      (labelPre ++ " – Perspective synthesis") (net 3)) (fun synthesis =>
  rmPure ⟨initialResearch, criticalAnalysis, identifiedGaps, synthesis, none⟩))))))

/-- JS object property assignment `o[k] = v` on an insertion-ordered
association list: overwrite in place when the key exists, append
otherwise. -/
def objInsert (m : List (String × PerspectiveResult)) (k : String)
    (v : PerspectiveResult) : List (String × PerspectiveResult) :=
  if m.any (fun kv => kv.1 = k) then
    m.map (fun kv => if kv.1 = k then (k, v) else kv)
  else m ++ [(k, v)]

/-- The error-flagged `PerspectiveResult` built in `deepResearch`'s catch
block. -/
def errorResult (msg : String) : PerspectiveResult := ⟨"", "", "", "", some msg⟩

/-- The `for` loop of `deepResearch` over perspective indices `idxs`,
accumulating the `researchResults` object; a fault of one perspective's
sub-pipeline is caught, logged and converted, and the loop continues. -/
def deepLoop (perspectives : List String) (depth : String)
    (net : Nat → Nat → NetOutcome) (total : Nat) :
    List Nat → List (String × PerspectiveResult) → RM (List (String × PerspectiveResult))
  | [], acc => rmPure acc
  | i :: rest, acc =>
      let perspective := perspectives.getD i ""
      let labelPre := "Perspective " ++ toString (i + 1) ++ "/" ++ toString total
      let shortName := truncateForLog perspective 80
      rmBind (logM (labelPre ++ ": Deep research for \"" ++ shortName ++ "\"") "info") (fun _ =>
      rmBind (rmTry (researchSinglePerspective perspective depth labelPre (net i))) (fun res =>
      match res with
      | Except.ok r => deepLoop perspectives depth net total rest (objInsert acc perspective r)
      | Except.error e =>
          rmBind (logM (labelPre ++ ": Failed - " ++ truncateForLog e.message 160) "error") (fun _ =>
          deepLoop perspectives depth net total rest
            (objInsert acc perspective (errorResult e.message)))))

/-- `deepResearch(perspectives, depth, iterations)`: Phase 3 runs the
sub-pipeline for the first `Math.min(perspectives.length, iterations)`
perspectives in order. -/
def deepResearch (perspectives : List String) (depth : String) (iterations : Nat)
    (net : Nat → Nat → NetOutcome) : RM (List (String × PerspectiveResult)) :=
  rmBind ensureActive (fun _ =>
  rmBind (logM "Phase 3: Running deep research across perspectives..." "info") (fun _ =>
  let total := min perspectives.length iterations
  rmBind (deepLoop perspectives depth net total (List.range total) []) (fun researchResults =>
  rmBind (logM "Deep research phase completed." "info") (fun _ =>
  rmPure researchResults))))

/-! ### Phase 4: `synthesizeFindings` -/

/-- One perspective's block of the research summary built by
`synthesizeFindings`'s `forEach`. -/
def perspectiveSummaryBlock (index : Nat) (perspective : String)
    (findings : PerspectiveResult) : String :=
  let synthesisSnippet := jsSlice
    (if findings.synthesis = "" then findings.initial_research else findings.synthesis) 800
  let headLine := "Perspective " ++ toString (index + 1) ++ ": " ++ perspective ++ "\n"
  if synthesisSnippet = "" then
    match findings.error with
    | some e => if e = "" then headLine
                else headLine ++ "Error for this perspective: " ++ e ++ "\n\n"
    | none => headLine
  else headLine ++ "Key findings snippet: " ++ synthesisSnippet ++ "\n\n"

def buildResearchSummary (topic : String)
    (research : List (String × PerspectiveResult)) : String :=
  let base := "Topic: " ++ topic ++ "\n\n"
  if research.isEmpty then
    base ++ "No detailed per-perspective results available; synthesize based on topic-level reasoning only.\n"
  else
    base ++ String.join (research.enum.map
      (fun iv => perspectiveSummaryBlock iv.1 iv.2.1 iv.2.2))

def globalSynthSections : List String :=
  ["Create a detailed research report that includes:",
   "1. Executive summary of key findings (max ~300 words).",
   "2. Integrated analysis across all perspectives and themes.",
   "3. Critical insights and emerging patterns.",
   "4. Overall research quality assessment and confidence levels.",
   "5. Consolidated gap analysis with prioritized opportunities.",
   "6. Concrete recommendations for future research (methods, timelines, resources).",
   "7. Practical applications, implementation strategies, and expected impact.",
   "8. Limitations of this synthesis (including relying on model-generated text).",
   "",
   "Write as a structured, clearly formatted report."]

def globalSynthFallback : String := "No synthesis returned by the model."

/-- `synthesizeFindings(research, topic)`: one gateway call over the capped
cross-perspective summary; an empty model response is replaced by a fixed
placeholder. -/
def synthesizeFindings (research : List (String × PerspectiveResult))
    (topic : String) (net : NetOutcome) : RM String :=
  rmBind ensureActive (fun _ =>
  rmBind (logM "Phase 4: Synthesizing cross-perspective findings..." "info") (fun _ =>
  let researchSummary := buildResearchSummary topic research
  let base := "Synthesize comprehensive research findings from multiple perspectives on: " ++ topic
  let prompt := buildUserPrompt base globalSynthSections
  rmBind (callOpenRouter
      [⟨"user", prompt ++ "\n\nContextual research summary:\n" ++ jsSlice researchSummary 6000⟩]
      5000 16 "Global synthesis" net) (fun synthesis =>
  rmBind (logM "Global synthesis completed." "info") (fun _ =>
  rmPure (if synthesis = "" then globalSynthFallback else synthesis)))))

/-! ### Run orchestrator: `conductResearch` -/

/-- `FinalReport`, the result object of a successful run. -/
structure FinalReport where
  topic : String
  topic_analysis : TopicAnalysis
  perspectives : List String
  deep_research : List (String × PerspectiveResult)
  synthesis : String
  research_log : List String
  deriving Repr, DecidableEq

/-- `conductResearch(topic, depth, iterations)`: the four phases strictly
in order; any fault of phases 1, 2 or 4 propagates unchanged.  Phase-label
and phase-progress observer notifications touch no run state and are not
modelled. -/
def conductResearch (topic depth : String) (iterations : Nat)
    (netAnalyze netGather : NetOutcome) (netDeep : Nat → Nat → NetOutcome)
    (netSynth : NetOutcome) : RM FinalReport :=
  rmBind ensureActive (fun _ =>
  rmBind (logM "Initializing full research workflow..." "info") (fun _ =>
  rmBind (analyzeTopic topic netAnalyze) (fun topicAnalysis =>
  rmBind (gatherPerspectives topic topicAnalysis iterations netGather) (fun perspectives =>
  rmBind (deepResearch perspectives depth iterations netDeep) (fun deep =>
  rmBind (synthesizeFindings deep topic netSynth) (fun synthesis =>
  rmBind (logM "Research workflow completed successfully." "info") (fun _ =>
  rmBind rmGetLog (fun researchLog =>
  rmPure ⟨topic, topicAnalysis, perspectives, deep, synthesis, researchLog⟩))))))))

/-! ### Parser modelled from the specification text

The specification describes the parser's numbered-list pattern as
`<digits><"." or ")"><whitespace><rest>`.  `parsePerspectivesSpecModel` is
written independently from those words (different line matcher and
paragraph splitter); its `wsRequired` flag selects whether the
`<whitespace>` component is mandatory (the spec's literal reading) or
optional (what the source regex `\s*` does). -/

/-- Consume a maximal non-empty digit prefix, returning the remainder. -/
def specAfterDigits : List Char → Option (List Char)
  | [] => none
  | c :: rest =>
      if c.isDigit then
        some (match specAfterDigits rest with
              | some r => r
              | none => rest)
      else none

/-- Skip leading whitespace. -/
def specDropWs : List Char → List Char
  | [] => []
  | c :: rest => if c.isWhitespace then specDropWs rest else c :: rest

/-- The spec's numbered-list pattern on a trimmed line: digits, a `.` or
`)` delimiter, whitespace (mandatory iff `wsRequired`), then a non-empty
remainder, which is returned. -/
def specNumbered (wsRequired : Bool) (cs : List Char) : Option (List Char) :=
  match specAfterDigits cs with
  | none => none
  | some rest =>
      match rest with
      | [] => none
      | c :: rest' =>
          if c = '.' ∨ c = ')' then
            match rest' with
            | [] => none
            | d :: _ =>
                if wsRequired && !d.isWhitespace then none
                else
                  let r := specDropWs rest'
                  if r.isEmpty then none else some r
          else none

/-- Paragraph splitting on runs of two-or-more newlines, written as a
left-fold state machine `(finished blocks, current block reversed, pending
newline count)`. -/
def specParaStep : List (List Char) × List Char × Nat → Char →
    List (List Char) × List Char × Nat
  | (done, cur, pend), c =>
      if c = '\n' then (done, cur, pend + 1)
      else if 2 ≤ pend then (done ++ [cur.reverse], [c], 0)
      else (done, c :: (List.replicate pend '\n' ++ cur), 0)

def specParaFinish : List (List Char) × List Char × Nat → List (List Char)
  | (done, cur, pend) =>
      if 2 ≤ pend then done ++ [cur.reverse, []]
      else done ++ [cur.reverse ++ List.replicate pend '\n']

def specParas (cs : List Char) : List (List Char) :=
  specParaFinish (cs.foldl specParaStep ([], [], 0))

/-- The parser as the specification words it: per line, trim, skip blanks,
keep the trimmed remainder of the numbered pattern; zero matches fall back
to trimmed paragraph blocks with empties discarded. -/
def parsePerspectivesSpecModel (wsRequired : Bool) (raw : String) : List String :=
  let lines := splitOnNl raw.data
  let results := lines.filterMap (fun line =>
    let trimmed := trimChars line
    if trimmed.isEmpty then none
    else (specNumbered wsRequired trimmed).map (fun r => (⟨trimChars r⟩ : String)))
  if results.isEmpty then
    ((specParas raw.data).map (fun p => (⟨trimChars p⟩ : String))).filter
      (fun s => !s.isEmpty)
  else results

/-! ### Auxiliary predicates and concrete fixtures -/

/-- JS `message.startsWith(label)`: the claimed traceability property of
fault messages. -/
def strStartsWith (s p : String) : Bool := s.data.take p.data.length == p.data

/-- The state after an operation has the same `active` flag as before. -/
def PreservesActive {α : Type} (m : RM α) : Prop :=
  ∀ st, ((m st).2).active = st.active

/-- Every fault the operation can raise carries a non-empty message. -/
def FaultsNonempty {α : Type} (m : RM α) : Prop :=
  ∀ st e st', m st = (Except.error e, st') → e.message ≠ ""

/-- A concrete run state for witnesses: freshly constructed researcher. -/
def st0 : RState :=
  { active := true, researchLog := [], constraints := "", requests := [],
    clock := fun _ => "t", tick := 0 }

/-- A concrete Phase-3 oracle for witnesses: perspective 0's first call
times out, every other call succeeds. -/
def netFail0 : Nat → Nat → NetOutcome := fun i _ =>
  if i = 0 then NetOutcome.timeout else NetOutcome.ok ⟨some "text"⟩

/-! ## Basic lemmas about strings and the computation combinators -/

theorem data_append (a b : String) : (a ++ b).data = a.data ++ b.data := by
  cases a; cases b; rfl

theorem str_eq_empty_iff (s : String) : s = "" ↔ s.data = [] := by
  cases s with
  | mk l =>
      constructor
      · intro h
        rw [h]
      · intro h
        rw [show l = [] from h]

theorem str_ne_empty_right (a b : String) (h : b ≠ "") : a ++ b ≠ "" := by
  intro hc
  apply h
  rw [str_eq_empty_iff] at hc ⊢
  rw [data_append] at hc
  exact (List.append_eq_nil.1 hc).2

theorem str_ne_empty_left (a b : String) (h : a ≠ "") : a ++ b ≠ "" := by
  intro hc
  apply h
  rw [str_eq_empty_iff] at hc ⊢
  rw [data_append] at hc
  exact (List.append_eq_nil.1 hc).1

theorem strStartsWith_append (p r : String) : strStartsWith (p ++ r) p = true := by
  unfold strStartsWith
  rw [data_append, List.take_left]
  exact beq_self_eq_true p.data

theorem rmBind_eq_ok {α β : Type} {m : RM α} {f : α → RM β} {st : RState}
    {b : β} {st' : RState} (h : rmBind m f st = (Except.ok b, st')) :
    ∃ a st1, m st = (Except.ok a, st1) ∧ f a st1 = (Except.ok b, st') := by
  unfold rmBind at h
  rcases hm : m st with ⟨r, s1⟩
  rw [hm] at h
  cases r with
  | ok a => exact ⟨a, s1, rfl, h⟩
  | error e => simp at h

theorem rmBind_eq_error {α β : Type} {m : RM α} {f : α → RM β} {st : RState}
    {e : Fault} {st' : RState} (h : rmBind m f st = (Except.error e, st')) :
    m st = (Except.error e, st') ∨
      ∃ a st1, m st = (Except.ok a, st1) ∧ f a st1 = (Except.error e, st') := by
  unfold rmBind at h
  rcases hm : m st with ⟨r, s1⟩
  rw [hm] at h
  cases r with
  | ok a => exact Or.inr ⟨a, s1, rfl, h⟩
  | error e' =>
      left
      simp only [Prod.mk.injEq, Except.error.injEq] at h
      rw [h.1, h.2]

theorem rmBind_step {α β : Type} {m : RM α} {f : α → RM β} {st : RState}
    {a : α} {st1 : RState} (h : m st = (Except.ok a, st1)) :
    rmBind m f st = f a st1 := by
  unfold rmBind
  rw [h]

theorem rmBind_step_error {α β : Type} {m : RM α} {f : α → RM β} {st : RState}
    {e : Fault} {st1 : RState} (h : m st = (Except.error e, st1)) :
    rmBind m f st = (Except.error e, st1) := by
  unfold rmBind
  rw [h]

theorem rmTry_ok {α : Type} {m : RM α} {st : RState} {a : α} {st1 : RState}
    (h : m st = (Except.ok a, st1)) : rmTry m st = (Except.ok (Except.ok a), st1) := by
  unfold rmTry
  rw [h]

theorem rmTry_error {α : Type} {m : RM α} {st : RState} {e : Fault} {st1 : RState}
    (h : m st = (Except.error e, st1)) :
    rmTry m st = (Except.ok (Except.error e), st1) := by
  unfold rmTry
  rw [h]

@[simp] theorem logSt_active (st : RState) (l m : String) :
    (logSt st l m).active = st.active := rfl

theorem logSt_researchLog_eq (st : RState) (l m : String) :
    (logSt st l m).researchLog
      = pushBounded st.researchLog (formatEntry (st.clock st.tick) l m) := rfl

@[simp] theorem logSt_clock (st : RState) (l m : String) :
    (logSt st l m).clock = st.clock := rfl

@[simp] theorem logSt_tick (st : RState) (l m : String) :
    (logSt st l m).tick = st.tick + 1 := rfl

@[simp] theorem logSt_constraints (st : RState) (l m : String) :
    (logSt st l m).constraints = st.constraints := rfl

@[simp] theorem logSt_requests (st : RState) (l m : String) :
    (logSt st l m).requests = st.requests := rfl

theorem logM_run {st : RState} (m l : String) (hact : st.active = true) :
    logM m l st = (Except.ok (), logSt st l m) := by
  unfold logM
  rw [hact]
  rfl

theorem ensureActive_run {st : RState} (hact : st.active = true) :
    ensureActive st = (Except.ok (), st) := by
  unfold ensureActive
  rw [hact]
  rfl

/-! ### `active`-flag preservation: only `cancel` changes the flag -/

theorem preserves_rmPure {α : Type} (a : α) : PreservesActive (rmPure a) :=
  fun _ => rfl

theorem preserves_rmThrow {α : Type} (s : String) :
    PreservesActive (rmThrow (α := α) s) := fun _ => rfl

theorem preserves_ensureActive : PreservesActive ensureActive := by
  intro st
  unfold ensureActive
  split <;> rfl

theorem preserves_logM (m l : String) : PreservesActive (logM m l) := by
  intro st
  unfold logM
  split <;> rfl

theorem preserves_fetchTick (label : String) (mt tp : Nat) :
    PreservesActive (fetchTick label mt tp) := fun _ => rfl

theorem preserves_rmGetConstraints : PreservesActive rmGetConstraints :=
  fun _ => rfl

theorem preserves_rmBind {α β : Type} {m : RM α} {f : α → RM β}
    (hm : PreservesActive m) (hf : ∀ a, PreservesActive (f a)) :
    PreservesActive (rmBind m f) := by
  intro st
  have h1 := hm st
  unfold rmBind
  rcases hm2 : m st with ⟨r, s1⟩
  rw [hm2] at h1
  cases r with
  | ok a => exact (hf a s1).trans h1
  | error e => exact h1

theorem preserves_handleNet (label : String) (net : NetOutcome) :
    PreservesActive (handleNet label net) := by
  cases net with
  | timeout => exact preserves_rmThrow _
  | netError m => exact preserves_rmThrow _
  | httpError s t d =>
      exact preserves_rmBind (preserves_logM _ _) (fun _ => preserves_rmThrow _)
  | parseError m =>
      exact preserves_rmBind (preserves_logM _ _) (fun _ => preserves_rmThrow _)
  | ok data =>
      rcases data with ⟨c⟩
      cases c with
      | none => exact preserves_rmThrow _
      | some s =>
          exact preserves_rmBind (preserves_logM _ _) (fun _ => preserves_rmPure _)

theorem preserves_callOpenRouter (ms : List Message) (mt tp : Nat)
    (label : String) (net : NetOutcome) :
    PreservesActive (callOpenRouter ms mt tp label net) := by
  refine preserves_rmBind preserves_ensureActive (fun _ => ?_)
  cases hc : ms.isEmpty with
  | true => simpa [callOpenRouter, hc] using preserves_rmThrow (α := String) emptyMessagesMessage
  | false =>
      simp only [hc, Bool.false_eq_true, if_false]
      exact preserves_rmBind (preserves_logM _ _)
        (fun _ => preserves_rmBind (preserves_fetchTick _ _ _)
          (fun _ => preserves_handleNet _ _))

theorem preserves_researchSinglePerspective (p depth lp : String)
    (net : Nat → NetOutcome) :
    PreservesActive (researchSinglePerspective p depth lp net) := by
  refine preserves_rmBind preserves_ensureActive (fun _ => ?_)
  refine preserves_rmBind preserves_rmGetConstraints (fun _ => ?_)
  refine preserves_rmBind (preserves_callOpenRouter _ _ _ _ _) (fun _ => ?_)
  refine preserves_rmBind (preserves_callOpenRouter _ _ _ _ _) (fun _ => ?_)
  refine preserves_rmBind (preserves_callOpenRouter _ _ _ _ _) (fun _ => ?_)
  exact preserves_rmBind (preserves_callOpenRouter _ _ _ _ _)
    (fun _ => preserves_rmPure _)

/-! ### Every fault of the gateway and the sub-pipeline has a non-empty message -/

theorem faults_rmPure {α : Type} (a : α) : FaultsNonempty (rmPure a) := by
  intro st e st' h
  simp [rmPure] at h

theorem faults_rmThrow {α : Type} {s : String} (hs : s ≠ "") :
    FaultsNonempty (rmThrow (α := α) s) := by
  intro st e st' h
  unfold rmThrow at h
  simp only [Prod.mk.injEq, Except.error.injEq] at h
  rw [← h.1]
  exact hs

theorem faults_ensureActive : FaultsNonempty ensureActive := by
  intro st e st' h
  unfold ensureActive at h
  split at h
  · simp at h
  · simp only [Prod.mk.injEq, Except.error.injEq] at h
    rw [← h.1]
    unfold cancelFault cancelMessage
    decide

theorem faults_logM (m l : String) : FaultsNonempty (logM m l) := by
  intro st e st' h
  unfold logM at h
  split at h
  · simp at h
  · simp only [Prod.mk.injEq, Except.error.injEq] at h
    rw [← h.1]
    unfold cancelFault cancelMessage
    decide

theorem faults_fetchTick (label : String) (mt tp : Nat) :
    FaultsNonempty (fetchTick label mt tp) := by
  intro st e st' h
  simp [fetchTick] at h

theorem faults_rmGetConstraints : FaultsNonempty rmGetConstraints := by
  intro st e st' h
  simp [rmGetConstraints] at h

theorem faults_rmBind {α β : Type} {m : RM α} {f : α → RM β}
    (hm : FaultsNonempty m) (hf : ∀ a, FaultsNonempty (f a)) :
    FaultsNonempty (rmBind m f) := by
  intro st e st' h
  rcases rmBind_eq_error h with h1 | ⟨a, st1, _, hf1⟩
  · exact hm st e st' h1
  · exact hf a st1 e st' hf1

theorem httpErrorMessage_ne_empty (label : String) (status : Nat)
    (statusText : String) (detail : Option String) :
    httpErrorMessage label status statusText detail ≠ "" := by
  unfold httpErrorMessage
  refine str_ne_empty_right _ _ ?_
  refine str_ne_empty_left _ _ ?_
  refine str_ne_empty_left _ _ ?_
  refine str_ne_empty_left _ _ ?_
  exact str_ne_empty_left _ _ (by decide)

theorem faults_handleNet (label : String) (net : NetOutcome) :
    FaultsNonempty (handleNet label net) := by
  cases net with
  | timeout =>
      exact faults_rmThrow (str_ne_empty_right _ _ (by decide))
  | netError m =>
      exact faults_rmThrow (str_ne_empty_right _ _ (str_ne_empty_left _ _ (by decide)))
  | httpError s t d =>
      exact faults_rmBind (faults_logM _ _)
        (fun _ => faults_rmThrow (httpErrorMessage_ne_empty label s t d))
  | parseError m =>
      exact faults_rmBind (faults_logM _ _)
        (fun _ => faults_rmThrow (str_ne_empty_right _ _ (str_ne_empty_left _ _ (by decide))))
  | ok data =>
      rcases data with ⟨c⟩
      cases c with
      | none => exact faults_rmThrow (by decide)
      | some s =>
          exact faults_rmBind (faults_logM _ _) (fun _ => faults_rmPure _)

theorem faults_callOpenRouter (ms : List Message) (mt tp : Nat)
    (label : String) (net : NetOutcome) :
    FaultsNonempty (callOpenRouter ms mt tp label net) := by
  refine faults_rmBind faults_ensureActive (fun _ => ?_)
  cases hc : ms.isEmpty with
  | true =>
      simpa [callOpenRouter, hc] using
        faults_rmThrow (α := String) (s := emptyMessagesMessage) (by decide)
  | false =>
      simp only [hc, Bool.false_eq_true, if_false]
      exact faults_rmBind (faults_logM _ _)
        (fun _ => faults_rmBind (faults_fetchTick _ _ _)
          (fun _ => faults_handleNet _ _))

theorem faults_researchSinglePerspective (p depth lp : String)
    (net : Nat → NetOutcome) :
    FaultsNonempty (researchSinglePerspective p depth lp net) := by
  refine faults_rmBind faults_ensureActive (fun _ => ?_)
  refine faults_rmBind faults_rmGetConstraints (fun _ => ?_)
  refine faults_rmBind (faults_callOpenRouter _ _ _ _ _) (fun _ => ?_)
  refine faults_rmBind (faults_callOpenRouter _ _ _ _ _) (fun _ => ?_)
  refine faults_rmBind (faults_callOpenRouter _ _ _ _ _) (fun _ => ?_)
  exact faults_rmBind (faults_callOpenRouter _ _ _ _ _) (fun _ => faults_rmPure _)

/-- A successful sub-pipeline result carries no error marker. -/
theorem rsp_error_none {p depth lp : String} {net : Nat → NetOutcome}
    {st : RState} {r : PerspectiveResult} {st' : RState}
    (h : researchSinglePerspective p depth lp net st = (Except.ok r, st')) :
    r.error = none := by
  unfold researchSinglePerspective at h
  obtain ⟨_, st1, -, h⟩ := rmBind_eq_ok h
  obtain ⟨_, st2, -, h⟩ := rmBind_eq_ok h
  obtain ⟨_, st3, -, h⟩ := rmBind_eq_ok h
  obtain ⟨_, st4, -, h⟩ := rmBind_eq_ok h
  obtain ⟨_, st5, -, h⟩ := rmBind_eq_ok h
  obtain ⟨_, st6, -, h⟩ := rmBind_eq_ok h
  unfold rmPure at h
  simp only [Prod.mk.injEq, Except.ok.injEq] at h
  rw [← h.1]

/-- Evaluation of `callOpenRouter` on an active state with a non-empty
message list: the "contacting model" log and the recorded request happen
first, then the outcome decides value, state and error logging. -/
theorem callOpenRouter_run (ms : List Message) (mt tp : Nat) (label : String)
    (net : NetOutcome) (st : RState) (hact : st.active = true)
    (hms : ms.isEmpty = false) :
    callOpenRouter ms mt tp label net st =
      (let st1 := logSt st "info" (label ++ ": contacting model...")
       let st2 := { st1 with requests := st1.requests ++ [(label, mt, tp)] }
       match net with
       | NetOutcome.timeout =>
           (Except.error ⟨label ++ " timed out after 180s."⟩, st2)
       | NetOutcome.netError m =>
           (Except.error ⟨label ++ (" network error: " ++ m)⟩, st2)
       | NetOutcome.httpError s t d =>
           (Except.error ⟨httpErrorMessage label s t d⟩,
            logSt st2 "error" (httpErrorMessage label s t d))
       | NetOutcome.parseError m =>
           (Except.error ⟨label ++ (" failed to parse response JSON: " ++ m)⟩,
            logSt st2 "error" (label ++ (" failed to parse response JSON: " ++ m)))
       | NetOutcome.ok data =>
           match data.content with
           | none => (Except.error ⟨malformedMessage⟩, st2)
           | some c =>
               (Except.ok c, logSt st2 "info" (label ++ ": response received."))) := by
  cases net with
  | timeout =>
      unfold callOpenRouter
      rw [rmBind_step (ensureActive_run hact)]
      simp only [hms, Bool.false_eq_true, if_false]
      rw [rmBind_step (logM_run _ _ hact)]
      rfl
  | netError m =>
      unfold callOpenRouter
      rw [rmBind_step (ensureActive_run hact)]
      simp only [hms, Bool.false_eq_true, if_false]
      rw [rmBind_step (logM_run _ _ hact)]
      rfl
  | httpError s t d =>
      unfold callOpenRouter
      rw [rmBind_step (ensureActive_run hact)]
      simp only [hms, Bool.false_eq_true, if_false]
      rw [rmBind_step (logM_run _ _ hact)]
      rw [rmBind_step (show fetchTick label mt tp
        (logSt st "info" (label ++ ": contacting model..."))
        = (Except.ok (), _) from rfl)]
      simp only [handleNet]
      rw [rmBind_step (logM_run _ _ (by simp [hact]))]
      rfl
  | parseError m =>
      unfold callOpenRouter
      rw [rmBind_step (ensureActive_run hact)]
      simp only [hms, Bool.false_eq_true, if_false]
      rw [rmBind_step (logM_run _ _ hact)]
      rw [rmBind_step (show fetchTick label mt tp
        (logSt st "info" (label ++ ": contacting model..."))
        = (Except.ok (), _) from rfl)]
      simp only [handleNet]
      rw [rmBind_step (logM_run _ _ (by simp [hact]))]
      rfl
  | ok data =>
      rcases data with ⟨c⟩
      cases c with
      | none =>
          unfold callOpenRouter
          rw [rmBind_step (ensureActive_run hact)]
          simp only [hms, Bool.false_eq_true, if_false]
          rw [rmBind_step (logM_run _ _ hact)]
          rfl
      | some s =>
          unfold callOpenRouter
          rw [rmBind_step (ensureActive_run hact)]
          simp only [hms, Bool.false_eq_true, if_false]
          rw [rmBind_step (logM_run _ _ hact)]
          rw [rmBind_step (show fetchTick label mt tp
            (logSt st "info" (label ++ ": contacting model..."))
            = (Except.ok (), _) from rfl)]
          simp only [handleNet]
          rw [rmBind_step (logM_run _ _ (by simp [hact]))]
          rfl

/-! ## Claim theorems -/

/-- C2: after `cancel()` has set `active` to `false`, every subsequent
invocation of a phase operation (`analyzeTopic`, `gatherPerspectives`,
`deepResearch`, `researchSinglePerspective`, `synthesizeFindings`,
`conductResearch`) or of `callOpenRouter` fails with the cancellation
fault, and returns the run state completely unchanged — in particular the
log buffer gains no entry and no network request is recorded. -/
theorem c2_cancel_fails_fast (st : RState) (topic depth p lp : String)
    (ta : TopicAnalysis) (iterations : Nat) (perspectives : List String)
    (research : List (String × PerspectiveResult)) (ms : List Message)
    (mt tp : Nat) (label : String) (netA netG netS netC : NetOutcome)
    (netD : Nat → Nat → NetOutcome) (netP : Nat → NetOutcome) :
    analyzeTopic topic netA (cancel st) = (Except.error cancelFault, cancel st) ∧
    gatherPerspectives topic ta iterations netG (cancel st)
      = (Except.error cancelFault, cancel st) ∧
    deepResearch perspectives depth iterations netD (cancel st)
      = (Except.error cancelFault, cancel st) ∧
    researchSinglePerspective p depth lp netP (cancel st)
      = (Except.error cancelFault, cancel st) ∧
    synthesizeFindings research topic netS (cancel st)
      = (Except.error cancelFault, cancel st) ∧
    conductResearch topic depth iterations netA netG netD netS (cancel st)
      = (Except.error cancelFault, cancel st) ∧
    callOpenRouter ms mt tp label netC (cancel st)
      = (Except.error cancelFault, cancel st) := by
  exact ⟨rfl, rfl, rfl, rfl, rfl, rfl, rfl⟩

/-- C10: every depth string other than `"extreme"` and `"advanced"` —
including misspellings and arbitrary values — silently selects the
normal-depth budget (`maxTokens` 3000, temperature 0.22) for the
initial-research call, and `researchSinglePerspective` behaves exactly as
for a recognized normal depth: no validation, no fault. -/
theorem c10_unrecognized_depth_defaults (depth : String)
    (h1 : depth ≠ "extreme") (h2 : depth ≠ "advanced") :
    depthMaxTokens depth = 3000 ∧ depthTemperature depth = 22 ∧
    ∀ (p lp : String) (net : Nat → NetOutcome) (st : RState),
      researchSinglePerspective p depth lp net st
        = researchSinglePerspective p "normal" lp net st := by
  have hm : depthMaxTokens depth = 3000 := by
    unfold depthMaxTokens
    rw [if_neg h1, if_neg h2]
  have ht : depthTemperature depth = 22 := by
    unfold depthTemperature
    rw [if_neg h1, if_neg h2]
  refine ⟨hm, ht, fun p lp net st => ?_⟩
  unfold researchSinglePerspective
  rw [hm, ht]
  rfl

/-- C10 witness: `"Extreme"` (capitalized) is not a recognized depth and
gets the normal budget. -/
theorem c10_witness :
    depthMaxTokens "Extreme" = 3000 ∧ depthTemperature "Extreme" = 22 ∧
    ∀ (p lp : String) (net : Nat → NetOutcome) (st : RState),
      researchSinglePerspective p "Extreme" lp net st
        = researchSinglePerspective p "normal" lp net st :=
  c10_unrecognized_depth_defaults "Extreme" (by decide) (by decide)

theorem log_max_value : LOG_MAX_ENTRIES = 500 := rfl

theorem pushBounded_small {buf : List String} (e : String)
    (h : buf.length < 500) : pushBounded buf e = buf ++ [e] := by
  have hc : ¬ (LOG_MAX_ENTRIES < (buf ++ [e]).length) := by
    simp only [List.length_append, List.length_cons, List.length_nil,
      log_max_value]
    omega
  simp only [pushBounded]
  rw [if_neg hc]

theorem pushBounded_evict {buf : List String} (e : String)
    (h : buf.length = 500) :
    pushBounded buf e = (buf ++ [e]).drop 1 := by
  have hc : LOG_MAX_ENTRIES < (buf ++ [e]).length := by
    simp only [List.length_append, List.length_cons, List.length_nil,
      log_max_value]
    omega
  simp only [pushBounded]
  rw [if_pos hc]

theorem foldl_pushBounded (es : List String) : ∀ buf : List String,
    buf.length ≤ 500 →
    List.foldl pushBounded buf es
      = (buf ++ es).drop (buf.length + es.length - 500) := by
  induction es with
  | nil =>
      intro buf h
      simp only [List.foldl_nil, List.append_nil, List.length_nil, Nat.add_zero]
      rw [Nat.sub_eq_zero_of_le h, List.drop_zero]
  | cons e es ih =>
      intro buf h
      simp only [List.foldl_cons]
      by_cases hb : buf.length < 500
      · rw [pushBounded_small e hb]
        rw [ih (buf ++ [e]) (by
          simp only [List.length_append, List.length_cons, List.length_nil]
          omega)]
        rw [List.append_assoc, List.singleton_append]
        have hidx : (buf ++ [e]).length + es.length - 500
            = buf.length + (e :: es).length - 500 := by
          simp only [List.length_append, List.length_cons, List.length_nil]
          omega
        rw [hidx]
      · have hb500 : buf.length = 500 := by omega
        rw [pushBounded_evict e hb500]
        have hlen : ((buf ++ [e]).drop 1).length = 500 := by
          simp only [List.length_drop, List.length_append, List.length_cons,
            List.length_nil]
          omega
        rw [ih _ (le_of_eq hlen), hlen]
        rw [← List.drop_append_of_le_length (by
          simp only [List.length_append, List.length_cons, List.length_nil]
          omega)]
        rw [List.drop_drop]
        rw [← List.append_cons]
        have hidx : (1 : Nat) + (500 + es.length - 500)
            = buf.length + (e :: es).length - 500 := by
          simp only [List.length_cons]
          omega
        rw [hidx]

/-- C6: the research-log buffer is capacity-bounded FIFO: starting from the
empty buffer, appending any sequence of entries keeps exactly the last
`LOG_MAX_ENTRIES = 500` of them, oldest first (so 501 appends keep the last
500), the buffer length never exceeds 500, and each `log` call on an active
run updates the buffer by exactly one back-push with front eviction. -/
theorem c6_log_buffer_fifo :
    (∀ es : List String,
      List.foldl pushBounded [] es = es.drop (es.length - LOG_MAX_ENTRIES) ∧
      (List.foldl pushBounded [] es).length = min es.length LOG_MAX_ENTRIES) ∧
    ∀ st message level, st.active = true →
      ((logM message level st).2).researchLog
        = pushBounded st.researchLog
            (formatEntry (st.clock st.tick) level message) := by
  constructor
  · intro es
    have h1 := foldl_pushBounded es [] (by simp)
    simp only [List.nil_append, List.length_nil, Nat.zero_add] at h1
    rw [log_max_value]
    refine ⟨h1, ?_⟩
    rw [h1]
    simp only [List.length_drop]
    omega
  · intro st message level hact
    rw [logM_run _ _ hact]
    rfl

/-- C6 witness: the per-append buffer update of `log` at a concrete state. -/
theorem c6_witness :
    ((logM "x" "info" st0).2).researchLog
      = pushBounded st0.researchLog (formatEntry (st0.clock st0.tick) "info" "x") :=
  c6_log_buffer_fifo.2 st0 "x" "info" rfl

/-- Evaluation of `callOpenRouter` on a successful, well-formed response:
the content text is returned and the state gains the two info log entries
and the recorded request. -/
theorem callOpenRouter_ok_run (ms : List Message) (mt tp : Nat)
    (label c : String) (st : RState) (hact : st.active = true)
    (hms : ms.isEmpty = false) :
    callOpenRouter ms mt tp label (NetOutcome.ok ⟨some c⟩) st
      = (Except.ok c,
         logSt { logSt st "info" (label ++ ": contacting model...") with
                 requests := st.requests ++ [(label, mt, tp)] } "info"
               (label ++ ": response received.")) := by
  rw [callOpenRouter_run ms mt tp label _ st hact hms]
  rfl

/-- C9: on a successful model call, `analyzeTopic` returns the response
text as the analysis whenever it is non-empty, and the fixed fallback
string when the model returns the empty text. -/
theorem c9_analyze_topic (st : RState) (topic c : String)
    (hact : st.active = true) :
    (c ≠ "" → (analyzeTopic topic (NetOutcome.ok ⟨some c⟩) st).1
        = Except.ok ⟨c⟩) ∧
    (c = "" → (analyzeTopic topic (NetOutcome.ok ⟨some c⟩) st).1
        = Except.ok ⟨analyzeFallback⟩) := by
  have heval : ∀ st6, rmPure (α := TopicAnalysis)
      ⟨if c = "" then analyzeFallback else c⟩ st6
        = (Except.ok ⟨if c = "" then analyzeFallback else c⟩, st6) :=
    fun _ => rfl
  constructor
  · intro hc
    unfold analyzeTopic
    rw [rmBind_step (ensureActive_run hact)]
    rw [rmBind_step (logM_run _ _ hact)]
    rw [rmBind_step (callOpenRouter_ok_run _ _ _ _ _ _ (by simp [hact]) (by rfl))]
    rw [rmBind_step (logM_run _ _ (by simp [hact]))]
    rw [heval, if_neg hc]
  · intro hc
    unfold analyzeTopic
    rw [rmBind_step (ensureActive_run hact)]
    rw [rmBind_step (logM_run _ _ hact)]
    rw [rmBind_step (callOpenRouter_ok_run _ _ _ _ _ _ (by simp [hact]) (by rfl))]
    rw [rmBind_step (logM_run _ _ (by simp [hact]))]
    rw [heval, if_pos hc]

/-- C9 witness: both branches at concrete inputs. -/
theorem c9_witness :
    (analyzeTopic "T" (NetOutcome.ok ⟨some "hello"⟩) st0).1
      = Except.ok ⟨"hello"⟩ ∧
    (analyzeTopic "T" (NetOutcome.ok ⟨some ""⟩) st0).1
      = Except.ok ⟨analyzeFallback⟩ :=
  ⟨(c9_analyze_topic st0 "T" "hello" rfl).1 (by decide),
   (c9_analyze_topic st0 "T" "" rfl).2 rfl⟩

/-- C3 counterexample: the claim says the returned sequence length always
equals `max(iterations, 3)`; with `iterations = 5` and a model response
parsing to a single perspective, `gatherPerspectives` returns a sequence of
length `1 ≠ max 5 3`. -/
theorem c3_counterexample :
    (gatherPerspectives "T" ⟨"A"⟩ 5 (NetOutcome.ok ⟨some "1. A: x"⟩) st0).1
      = Except.ok ["A: x"] ∧
    ([("A: x" : String)].length ≠ max 5 3) := by
  exact ⟨rfl, by decide⟩

/-- C3 (amended): every successful run of `gatherPerspectives` returns
exactly the prefix `take (max iterations 3)` of the parsed perspective
list, in original order; its length is therefore
`min (max iterations 3) (parsed count)` — equal to `max(iterations, 3)`
only when at least that many perspectives were parsed. -/
theorem c3_gather_truncates (st : RState) (topic : String) (ta : TopicAnalysis)
    (iterations : Nat) (raw : String) (hact : st.active = true)
    (hne : (parsePerspectives raw).isEmpty = false) :
    (gatherPerspectives topic ta iterations (NetOutcome.ok ⟨some raw⟩) st).1
        = Except.ok ((parsePerspectives raw).take (max iterations 3)) ∧
    ((parsePerspectives raw).take (max iterations 3)).length
        = min (max iterations 3) (parsePerspectives raw).length ∧
    (parsePerspectives raw).take (max iterations 3) <+: parsePerspectives raw := by
  refine ⟨?_, by simp, List.take_prefix _ _⟩
  unfold gatherPerspectives
  rw [rmBind_step (ensureActive_run hact)]
  rw [rmBind_step (logM_run _ _ hact)]
  rw [rmBind_step (callOpenRouter_ok_run _ _ _ _ _ _ (by simp [hact]) (by rfl))]
  simp only [hne, Bool.false_eq_true, if_false]
  rw [rmBind_step (logM_run _ _ (by simp [hact]))]
  rfl

/-- C3 witness: the amended statement at a concrete parse of four
perspectives with `iterations = 3`. -/
theorem c3_witness :
    (gatherPerspectives "T" ⟨"A"⟩ 3
        (NetOutcome.ok ⟨some "1. A\n2. B\n3. C\n4. D"⟩) st0).1
      = Except.ok ((parsePerspectives "1. A\n2. B\n3. C\n4. D").take (max 3 3)) ∧
    ((parsePerspectives "1. A\n2. B\n3. C\n4. D").take (max 3 3)).length
      = min (max 3 3) (parsePerspectives "1. A\n2. B\n3. C\n4. D").length ∧
    (parsePerspectives "1. A\n2. B\n3. C\n4. D").take (max 3 3)
      <+: parsePerspectives "1. A\n2. B\n3. C\n4. D" :=
  c3_gather_truncates st0 "T" ⟨"A"⟩ 3 "1. A\n2. B\n3. C\n4. D" rfl (by decide)

theorem splitOnNl_mem : ∀ (cs : List Char) (l : List Char),
    l ∈ splitOnNl cs → ∀ c ∈ l, c ∈ cs := by
  intro cs
  induction cs with
  | nil =>
      intro l hl c hc
      simp only [splitOnNl, List.mem_singleton] at hl
      subst hl
      simp at hc
  | cons a rest ih =>
      intro l hl c hc
      simp only [splitOnNl] at hl
      by_cases ha : a = '\n'
      · rw [if_pos ha] at hl
        rcases List.mem_cons.1 hl with h | h
        · subst h
          simp at hc
        · exact List.mem_cons_of_mem a (ih l h c hc)
      · rw [if_neg ha] at hl
        cases hs : splitOnNl rest with
        | nil =>
            rw [hs] at hl
            simp only [List.mem_singleton] at hl
            subst hl
            simp only [List.mem_singleton] at hc
            subst hc
            exact List.mem_cons_self c rest
        | cons hd tl =>
            rw [hs] at hl
            rcases List.mem_cons.1 hl with h | h
            · subst h
              rcases List.mem_cons.1 hc with h2 | h2
              · subst h2
                exact List.mem_cons_self c rest
              · have : hd ∈ splitOnNl rest := by
                  rw [hs]
                  exact List.mem_cons_self hd tl
                exact List.mem_cons_of_mem a (ih hd this c h2)
            · have : l ∈ splitOnNl rest := by
                rw [hs]
                exact List.mem_cons_of_mem hd h
              exact List.mem_cons_of_mem a (ih l this c hc)

theorem trimChars_all_ws {cs : List Char}
    (h : ∀ c ∈ cs, Char.isWhitespace c = true) : trimChars cs = [] := by
  unfold trimChars
  have h1 : cs.dropWhile Char.isWhitespace = [] :=
    List.dropWhile_eq_nil_iff.2 (fun c hc => h c hc)
  rw [h1]
  rfl

theorem splitParasAux_mem : ∀ (cs acc : List Char) (pend : Nat) (l : List Char),
    l ∈ splitParasAux cs acc pend → ∀ c ∈ l, c ∈ cs ∨ c ∈ acc ∨ c = '\n' := by
  intro cs
  induction cs with
  | nil =>
      intro acc pend l hl c hc
      simp only [splitParasAux] at hl
      split at hl
      · rcases List.mem_cons.1 hl with h | h
        · subst h
          right; left
          exact List.mem_reverse.1 hc
        · simp only [List.mem_singleton] at h
          subst h
          simp at hc
      · simp only [List.mem_singleton] at hl
        subst hl
        rcases List.mem_append.1 hc with h | h
        · right; left
          exact List.mem_reverse.1 h
        · right; right
          exact List.eq_of_mem_replicate h
  | cons a rest ih =>
      intro acc pend l hl c hc
      simp only [splitParasAux] at hl
      by_cases ha : a = '\n'
      · rw [if_pos ha] at hl
        rcases ih _ _ _ hl c hc with h | h | h
        · exact Or.inl (List.mem_cons_of_mem a h)
        · exact Or.inr (Or.inl h)
        · exact Or.inr (Or.inr h)
      · rw [if_neg ha] at hl
        by_cases hp : 2 ≤ pend
        · rw [if_pos hp] at hl
          rcases List.mem_cons.1 hl with h | h
          · subst h
            exact Or.inr (Or.inl (List.mem_reverse.1 hc))
          · rcases ih _ _ _ h c hc with h2 | h2 | h2
            · exact Or.inl (List.mem_cons_of_mem a h2)
            · simp only [List.mem_singleton] at h2
              subst h2
              exact Or.inl (List.mem_cons_self c rest)
            · exact Or.inr (Or.inr h2)
        · rw [if_neg hp] at hl
          rcases ih _ _ _ hl c hc with h2 | h2 | h2
          · exact Or.inl (List.mem_cons_of_mem a h2)
          · rcases List.mem_cons.1 h2 with h3 | h3
            · subst h3
              exact Or.inl (List.mem_cons_self c rest)
            · rcases List.mem_append.1 h3 with h4 | h4
              · exact Or.inr (Or.inr (List.eq_of_mem_replicate h4))
              · exact Or.inr (Or.inl h4)
          · exact Or.inr (Or.inr h2)

/-- C5: a whitespace-only input parses to the empty sequence through both
the numbered-list path and the paragraph-fallback path, and
`gatherPerspectives` turns any empty parse into the fatal
empty-generation fault. -/
theorem c5_empty_parse_is_fatal :
    (∀ s : String, s.data.all Char.isWhitespace = true →
      parsePerspectives s = []) ∧
    (∀ (st : RState) (topic : String) (ta : TopicAnalysis) (iterations : Nat)
        (raw : String), st.active = true → parsePerspectives raw = [] →
      (gatherPerspectives topic ta iterations (NetOutcome.ok ⟨some raw⟩) st).1
        = Except.error ⟨emptyGenerationMessage⟩) := by
  constructor
  · intro s hws
    rw [List.all_eq_true] at hws
    unfold parsePerspectives
    have hres : (splitOnNl s.data).filterMap (fun line =>
        let trimmed := trimChars line
        if trimmed.isEmpty then none
        else (numberedRest trimmed).map (fun r => (⟨trimChars r⟩ : String))) = [] := by
      rw [List.filterMap_eq_nil_iff]
      intro line hline
      have htr : trimChars line = [] :=
        trimChars_all_ws (fun c hc => hws c (splitOnNl_mem s.data line hline c hc))
      simp [htr]
    simp only [hres, List.isEmpty_nil, if_true]
    rw [List.filter_eq_nil_iff]
    intro x hx
    rcases List.mem_map.1 hx with ⟨p, hp, hxp⟩
    have hall : ∀ c ∈ p, Char.isWhitespace c = true := by
      intro c hc
      rcases splitParasAux_mem s.data [] 0 p hp c hc with h | h | h
      · exact hws c h
      · simp at h
      · subst h
        rfl
    have htr : trimChars p = [] := trimChars_all_ws hall
    rw [← hxp]
    simp [htr]
    decide
  · intro st topic ta iterations raw hact hparse
    unfold gatherPerspectives
    rw [rmBind_step (ensureActive_run hact)]
    rw [rmBind_step (logM_run _ _ hact)]
    rw [rmBind_step (callOpenRouter_ok_run _ _ _ _ _ _ (by simp [hact]) (by rfl))]
    rw [hparse]
    simp only [List.isEmpty_nil, if_true]
    rfl

/-- C5 witness: a concrete whitespace-only input and the fatal fault at the
empty parse of the empty response. -/
theorem c5_witness :
    parsePerspectives "  \n \n\n\t " = [] ∧
    (gatherPerspectives "T" ⟨"A"⟩ 3 (NetOutcome.ok ⟨some ""⟩) st0).1
      = Except.error ⟨emptyGenerationMessage⟩ :=
  ⟨c5_empty_parse_is_fatal.1 "  \n \n\n\t " (by decide),
   c5_empty_parse_is_fatal.2 st0 "T" ⟨"A"⟩ 3 "" rfl (by decide)⟩

/-- C7 counterexample: the malformed-response fault raised by
`callOpenRouter` (via `safeGetFirstChoiceContent`) carries a fixed message
that does not start with the supplied label. -/
theorem c7_counterexample :
    (callOpenRouter [⟨"user", "hi"⟩] 2000 15 "Topic analysis"
        (NetOutcome.ok ⟨none⟩) st0).1 = Except.error ⟨malformedMessage⟩ ∧
    strStartsWith malformedMessage "Topic analysis" = false := by
  exact ⟨rfl, by decide⟩

/-- C7 (amended): every fault raised by `callOpenRouter` on an active run
with a non-empty message list either starts with the supplied `label`
(timeout, network, HTTP and parse faults all do) or is the
malformed-response fault, whose message is the fixed label-free string. -/
theorem c7_fault_labels (st : RState) (ms : List Message) (mt tp : Nat)
    (label : String) (net : NetOutcome) (hact : st.active = true)
    (hms : ms.isEmpty = false) :
    ∀ e st', callOpenRouter ms mt tp label net st = (Except.error e, st') →
      strStartsWith e.message label = true ∨ e.message = malformedMessage := by
  intro e st' h
  rw [callOpenRouter_run ms mt tp label net st hact hms] at h
  cases net with
  | timeout =>
      simp only [Prod.mk.injEq, Except.error.injEq] at h
      left
      rw [← h.1]
      exact strStartsWith_append label " timed out after 180s."
  | netError m =>
      simp only [Prod.mk.injEq, Except.error.injEq] at h
      left
      rw [← h.1]
      exact strStartsWith_append label (" network error: " ++ m)
  | httpError s t d =>
      simp only [Prod.mk.injEq, Except.error.injEq] at h
      left
      rw [← h.1]
      unfold httpErrorMessage
      exact strStartsWith_append label _
  | parseError m =>
      simp only [Prod.mk.injEq, Except.error.injEq] at h
      left
      rw [← h.1]
      exact strStartsWith_append label (" failed to parse response JSON: " ++ m)
  | ok data =>
      rcases data with ⟨c⟩
      cases c with
      | none =>
          simp only [Prod.mk.injEq, Except.error.injEq] at h
          right
          rw [← h.1]
      | some s => simp at h

/-- C7 witness: the timeout fault at a concrete call starts with its
label. -/
theorem c7_witness :
    strStartsWith "L timed out after 180s." "L" = true ∨
      ("L timed out after 180s." : String) = malformedMessage :=
  c7_fault_labels st0 [⟨"user", "hi"⟩] 2000 15 "L" NetOutcome.timeout rfl rfl
    ⟨"L timed out after 180s."⟩
    ((callOpenRouter [⟨"user", "hi"⟩] 2000 15 "L" NetOutcome.timeout st0).2)
    (by rfl)

/-- C8 counterexample: the timeout fault is thrown without any error-level
log entry — after the call only the "contacting model" entry exists, and
the error-formatted entry for the fault message is absent. -/
theorem c8_counterexample :
    (callOpenRouter [⟨"user", "hi"⟩] 2000 15 "L" NetOutcome.timeout st0).1
      = Except.error ⟨"L timed out after 180s."⟩ ∧
    ((callOpenRouter [⟨"user", "hi"⟩] 2000 15 "L" NetOutcome.timeout st0).2).researchLog
      = ["[t] [INFO] L: contacting model..."] ∧
    formatEntry "t" "error" "L timed out after 180s." ∉
      ((callOpenRouter [⟨"user", "hi"⟩] 2000 15 "L"
          NetOutcome.timeout st0).2).researchLog := by
  refine ⟨rfl, rfl, ?_⟩
  decide

/-- C8 (amended): `callOpenRouter` logs the "contacting model" event before
the request and the "response received" event after a success; HTTP and
parse faults are logged at error level before being thrown, but timeout,
network and malformed-response faults are thrown without any further log
entry. -/
theorem c8_gateway_logging (st : RState) (ms : List Message) (mt tp : Nat)
    (label : String) (hact : st.active = true) (hms : ms.isEmpty = false)
    (hlen : st.researchLog.length + 2 ≤ 500) :
    (∀ c : String,
       (callOpenRouter ms mt tp label (NetOutcome.ok ⟨some c⟩) st).1
         = Except.ok c ∧
       ((callOpenRouter ms mt tp label (NetOutcome.ok ⟨some c⟩) st).2).researchLog
         = st.researchLog
           ++ [formatEntry (st.clock st.tick) "info" (label ++ ": contacting model..."),
               formatEntry (st.clock (st.tick + 1)) "info"
                 (label ++ ": response received.")]) ∧
    (∀ (s : Nat) (t : String) (d : Option String),
       (callOpenRouter ms mt tp label (NetOutcome.httpError s t d) st).1
         = Except.error ⟨httpErrorMessage label s t d⟩ ∧
       ((callOpenRouter ms mt tp label (NetOutcome.httpError s t d) st).2).researchLog
         = st.researchLog
           ++ [formatEntry (st.clock st.tick) "info" (label ++ ": contacting model..."),
               formatEntry (st.clock (st.tick + 1)) "error"
                 (httpErrorMessage label s t d)]) ∧
    (∀ m : String,
       (callOpenRouter ms mt tp label (NetOutcome.parseError m) st).1
         = Except.error ⟨label ++ (" failed to parse response JSON: " ++ m)⟩ ∧
       ((callOpenRouter ms mt tp label (NetOutcome.parseError m) st).2).researchLog
         = st.researchLog
           ++ [formatEntry (st.clock st.tick) "info" (label ++ ": contacting model..."),
               formatEntry (st.clock (st.tick + 1)) "error"
                 (label ++ (" failed to parse response JSON: " ++ m))]) ∧
    ((callOpenRouter ms mt tp label NetOutcome.timeout st).1
         = Except.error ⟨label ++ " timed out after 180s."⟩ ∧
     ((callOpenRouter ms mt tp label NetOutcome.timeout st).2).researchLog
         = st.researchLog
           ++ [formatEntry (st.clock st.tick) "info"
                 (label ++ ": contacting model...")]) ∧
    (∀ m : String,
       (callOpenRouter ms mt tp label (NetOutcome.netError m) st).1
         = Except.error ⟨label ++ (" network error: " ++ m)⟩ ∧
       ((callOpenRouter ms mt tp label (NetOutcome.netError m) st).2).researchLog
         = st.researchLog
           ++ [formatEntry (st.clock st.tick) "info"
                 (label ++ ": contacting model...")]) ∧
    ((callOpenRouter ms mt tp label (NetOutcome.ok ⟨none⟩) st).1
         = Except.error ⟨malformedMessage⟩ ∧
     ((callOpenRouter ms mt tp label (NetOutcome.ok ⟨none⟩) st).2).researchLog
         = st.researchLog
           ++ [formatEntry (st.clock st.tick) "info"
                 (label ++ ": contacting model...")]) := by
  have hp1 : pushBounded st.researchLog
      (formatEntry (st.clock st.tick) "info" (label ++ ": contacting model..."))
      = st.researchLog
        ++ [formatEntry (st.clock st.tick) "info" (label ++ ": contacting model...")] :=
    pushBounded_small _ (by omega)
  have hp2 : ∀ e2, pushBounded (st.researchLog
        ++ [formatEntry (st.clock st.tick) "info" (label ++ ": contacting model...")]) e2
      = st.researchLog
        ++ [formatEntry (st.clock st.tick) "info" (label ++ ": contacting model...")]
        ++ [e2] := by
    intro e2
    refine pushBounded_small _ ?_
    simp only [List.length_append, List.length_cons, List.length_nil]
    omega
  refine ⟨?_, ?_, ?_, ⟨?_, ?_⟩, ?_, ⟨?_, ?_⟩⟩
  · intro c
    rw [callOpenRouter_run ms mt tp label _ st hact hms]
    refine ⟨rfl, ?_⟩
    show (logSt _ "info" _).researchLog = _
    simp only [logSt_researchLog_eq, logSt_clock, logSt_tick, hp1, hp2]
    simp [List.append_assoc]
  · intro s t d
    rw [callOpenRouter_run ms mt tp label _ st hact hms]
    refine ⟨rfl, ?_⟩
    show (logSt _ "error" _).researchLog = _
    simp only [logSt_researchLog_eq, logSt_clock, logSt_tick, hp1, hp2]
    simp [List.append_assoc]
  · intro m
    rw [callOpenRouter_run ms mt tp label _ st hact hms]
    refine ⟨rfl, ?_⟩
    show (logSt _ "error" _).researchLog = _
    simp only [logSt_researchLog_eq, logSt_clock, logSt_tick, hp1, hp2]
    simp [List.append_assoc]
  · rw [callOpenRouter_run ms mt tp label _ st hact hms]
  · rw [callOpenRouter_run ms mt tp label _ st hact hms]
    show (logSt st "info" _).researchLog = _
    simp only [logSt_researchLog_eq, hp1]
  · intro m
    rw [callOpenRouter_run ms mt tp label _ st hact hms]
    refine ⟨rfl, ?_⟩
    show (logSt st "info" _).researchLog = _
    simp only [logSt_researchLog_eq, hp1]
  · rw [callOpenRouter_run ms mt tp label _ st hact hms]
  · rw [callOpenRouter_run ms mt tp label _ st hact hms]
    show (logSt st "info" _).researchLog = _
    simp only [logSt_researchLog_eq, hp1]

/-- C8 witness: the amended statement's timeout part at a concrete call. -/
theorem c8_witness :
    (callOpenRouter [⟨"user", "hi"⟩] 2000 15 "L" NetOutcome.timeout st0).1
      = Except.error ⟨"L" ++ " timed out after 180s."⟩ ∧
    ((callOpenRouter [⟨"user", "hi"⟩] 2000 15 "L" NetOutcome.timeout st0).2).researchLog
      = st0.researchLog
        ++ [formatEntry (st0.clock st0.tick) "info"
              ("L" ++ ": contacting model...")] :=
  (c8_gateway_logging st0 [⟨"user", "hi"⟩] 2000 15 "L" rfl rfl
    (by decide)).2.2.2.1

theorem objInsert_of_not_mem {m : List (String × PerspectiveResult)} {k : String}
    (v : PerspectiveResult) (h : k ∉ m.map Prod.fst) :
    objInsert m k v = m ++ [(k, v)] := by
  have h' : ¬ (List.any m (fun kv => decide (kv.1 = k)) = true) := by
    intro hc
    rw [List.any_eq_true] at hc
    rcases hc with ⟨kv, hkv, hq⟩
    exact h (List.mem_map.2 ⟨kv, hkv, of_decide_eq_true hq⟩)
  unfold objInsert
  rw [if_neg h']

theorem range_map_getD (p : List String) (n : Nat) (h : n ≤ p.length) :
    (List.range n).map (fun i => p.getD i "") = p.take n := by
  apply List.ext_getElem
  · simp only [List.length_map, List.length_range, List.length_take]
    omega
  · intro i h1 h2
    simp only [List.getElem_map, List.getElem_range, List.getElem_take]
    exact List.getD_eq_getElem _ _ (by
      simp only [List.length_map, List.length_range] at h1
      omega)

/-- The loop invariant of `deepResearch`'s `for` loop: on an active state
and index keys not colliding with the accumulated object, the loop always
succeeds, appends exactly one entry per index in order, keeps `active`
true, and every appended entry is either a clean sub-pipeline result or an
error-flagged result with a non-empty message and all four text fields
empty. -/
theorem deepLoop_spec (perspectives : List String) (depth : String)
    (net : Nat → Nat → NetOutcome) (total : Nat) :
    ∀ (idxs : List Nat) (acc : List (String × PerspectiveResult)) (st : RState),
      st.active = true →
      (acc.map Prod.fst ++ idxs.map (fun i => perspectives.getD i "")).Nodup →
      ∃ st' news,
        deepLoop perspectives depth net total idxs acc st
          = (Except.ok (acc ++ news), st') ∧
        news.map Prod.fst = idxs.map (fun i => perspectives.getD i "") ∧
        st'.active = true ∧
        (∀ kv ∈ news, kv.2.error = none ∨
          ∃ e, kv.2.error = some e ∧ e ≠ "" ∧ kv.2.initial_research = "" ∧
            kv.2.critical_analysis = "" ∧ kv.2.identified_gaps = ""
            ∧ kv.2.synthesis = "") := by
  intro idxs
  induction idxs with
  | nil =>
      intro acc st hact hnd
      exact ⟨st, [], by simp [deepLoop, rmPure], rfl, hact, by simp⟩
  | cons i rest ih =>
      intro acc st hact hnd
      simp only [List.map_cons] at hnd
      have hknotin : perspectives.getD i "" ∉ acc.map Prod.fst := by
        intro hmem
        have hdis := List.disjoint_of_nodup_append hnd
        exact hdis hmem (List.mem_cons_self _ _)
      have hact1 : (logSt st "info" ("Perspective " ++ toString (i + 1) ++ "/"
          ++ toString total ++ ": Deep research for \""
          ++ truncateForLog (perspectives.getD i "") 80 ++ "\"")).active = true := by
        simp [hact]
      rcases hres : researchSinglePerspective (perspectives.getD i "") depth
          ("Perspective " ++ toString (i + 1) ++ "/" ++ toString total) (net i)
          (logSt st "info" ("Perspective " ++ toString (i + 1) ++ "/"
            ++ toString total ++ ": Deep research for \""
            ++ truncateForLog (perspectives.getD i "") 80 ++ "\""))
        with ⟨res, st2⟩
      have hact2 : st2.active = true := by
        have hpres := preserves_researchSinglePerspective (perspectives.getD i "")
          depth ("Perspective " ++ toString (i + 1) ++ "/" ++ toString total)
          (net i) (logSt st "info" ("Perspective " ++ toString (i + 1) ++ "/"
            ++ toString total ++ ": Deep research for \""
            ++ truncateForLog (perspectives.getD i "") 80 ++ "\""))
        rw [hres] at hpres
        rw [hpres]
        exact hact1
      cases res with
      | ok r =>
          have hstep : deepLoop perspectives depth net total (i :: rest) acc st
              = deepLoop perspectives depth net total rest
                  (objInsert acc (perspectives.getD i "") r) st2 := by
            simp only [deepLoop]
            rw [rmBind_step (logM_run _ _ hact)]
            rw [rmBind_step (rmTry_ok hres)]
          have hobj : objInsert acc (perspectives.getD i "") r
              = acc ++ [(perspectives.getD i "", r)] :=
            objInsert_of_not_mem r hknotin
          have hnd' : ((acc ++ [(perspectives.getD i "", r)]).map Prod.fst
              ++ rest.map (fun j => perspectives.getD j "")).Nodup := by
            simp only [List.map_append, List.map_cons, List.map_nil]
            rw [List.append_assoc]
            simpa using hnd
          obtain ⟨st', news', heq, hmap, hact', hshape⟩ :=
            ih (acc ++ [(perspectives.getD i "", r)]) st2 hact2 hnd'
          refine ⟨st', (perspectives.getD i "", r) :: news', ?_, ?_, hact', ?_⟩
          · rw [hstep, hobj, heq, List.append_assoc, List.singleton_append]
          · simp only [List.map_cons, hmap]
          · intro kv hkv
            rcases List.mem_cons.1 hkv with h | h
            · subst h
              exact Or.inl (rsp_error_none hres)
            · exact hshape kv h
      | error e =>
          have hne : e.message ≠ "" :=
            faults_researchSinglePerspective (perspectives.getD i "") depth
              ("Perspective " ++ toString (i + 1) ++ "/" ++ toString total)
              (net i) _ e st2 hres
          have hstep2a : deepLoop perspectives depth net total (i :: rest) acc st
              = rmBind (logM ("Perspective " ++ toString (i + 1) ++ "/"
                    ++ toString total ++ ": Failed - "
                    ++ truncateForLog e.message 160) "error")
                  (fun _ => deepLoop perspectives depth net total rest
                    (objInsert acc (perspectives.getD i "")
                      (errorResult e.message))) st2 := by
            simp only [deepLoop]
            rw [rmBind_step (logM_run _ _ hact)]
            rw [rmBind_step (rmTry_error hres)]
          have hstep2b : rmBind (logM ("Perspective " ++ toString (i + 1) ++ "/"
                  ++ toString total ++ ": Failed - "
                  ++ truncateForLog e.message 160) "error")
                (fun _ => deepLoop perspectives depth net total rest
                  (objInsert acc (perspectives.getD i "")
                    (errorResult e.message))) st2
              = deepLoop perspectives depth net total rest
                  (objInsert acc (perspectives.getD i "") (errorResult e.message))
                  (logSt st2 "error" ("Perspective " ++ toString (i + 1) ++ "/"
                    ++ toString total ++ ": Failed - "
                    ++ truncateForLog e.message 160)) :=
            rmBind_step (logM_run _ _ hact2)
          have hobj : objInsert acc (perspectives.getD i "") (errorResult e.message)
              = acc ++ [(perspectives.getD i "", errorResult e.message)] :=
            objInsert_of_not_mem _ hknotin
          have hnd' : ((acc ++ [(perspectives.getD i "", errorResult e.message)]).map
                Prod.fst ++ rest.map (fun j => perspectives.getD j "")).Nodup := by
            simp only [List.map_append, List.map_cons, List.map_nil]
            rw [List.append_assoc]
            simpa using hnd
          have hact3 : (logSt st2 "error" ("Perspective " ++ toString (i + 1) ++ "/"
              ++ toString total ++ ": Failed - "
              ++ truncateForLog e.message 160)).active = true := by
            simp [hact2]
          obtain ⟨st', news', heq, hmap, hact', hshape⟩ :=
            ih (acc ++ [(perspectives.getD i "", errorResult e.message)]) _ hact3 hnd'
          refine ⟨st', (perspectives.getD i "", errorResult e.message) :: news',
            ?_, ?_, hact', ?_⟩
          · rw [hstep2a, hstep2b, hobj, heq, List.append_assoc, List.singleton_append]
          · simp only [List.map_cons, hmap]
          · intro kv hkv
            rcases List.mem_cons.1 hkv with h | h
            · subst h
              refine Or.inr ⟨e.message, rfl, hne, rfl, rfl, rfl, rfl⟩
            · exact hshape kv h

/-- C1: Phase 3 (`deepResearch`) always succeeds on an active run: it
processes exactly `min(len(perspectives), iterations)` perspectives,
strictly in input order, regardless of how many sub-pipelines fault; every
map entry either carries no error or carries a non-empty `error` with all
four text fields equal to the empty string. -/
theorem c1_deep_research_isolation (st : RState) (perspectives : List String)
    (depth : String) (iterations : Nat) (net : Nat → Nat → NetOutcome)
    (hact : st.active = true) (hnd : perspectives.Nodup) :
    ∃ st' m, deepResearch perspectives depth iterations net st
        = (Except.ok m, st') ∧
      m.map Prod.fst = perspectives.take (min perspectives.length iterations) ∧
      ∀ kv ∈ m, kv.2.error = none ∨
        ∃ e, kv.2.error = some e ∧ e ≠ "" ∧ kv.2.initial_research = "" ∧
          kv.2.critical_analysis = "" ∧ kv.2.identified_gaps = ""
          ∧ kv.2.synthesis = "" := by
  have hrange : (List.range (min perspectives.length iterations)).map
      (fun i => perspectives.getD i "")
      = perspectives.take (min perspectives.length iterations) :=
    range_map_getD _ _ (Nat.min_le_left _ _)
  have hnd2 : (([] : List (String × PerspectiveResult)).map Prod.fst
      ++ (List.range (min perspectives.length iterations)).map
        (fun i => perspectives.getD i "")).Nodup := by
    simp only [List.map_nil, List.nil_append, hrange]
    exact List.Nodup.sublist (List.take_sublist _ _) hnd
  have hact1 : (logSt st "info"
      "Phase 3: Running deep research across perspectives...").active = true := by
    simp [hact]
  obtain ⟨st', news, heq, hmap, hact', hshape⟩ :=
    deepLoop_spec perspectives depth net (min perspectives.length iterations)
      (List.range (min perspectives.length iterations)) [] _ hact1 hnd2
  refine ⟨logSt st' "info" "Deep research phase completed.", news, ?_, ?_, ?_⟩
  · simp only [deepResearch]
    rw [rmBind_step (ensureActive_run hact)]
    rw [rmBind_step (logM_run _ _ hact)]
    rw [rmBind_step (show deepLoop perspectives depth net
        (min perspectives.length iterations)
        (List.range (min perspectives.length iterations)) []
        (logSt st "info" "Phase 3: Running deep research across perspectives...")
        = (Except.ok news, st') from by simpa using heq)]
    rw [rmBind_step (logM_run _ _ hact')]
    rfl
  · rw [hmap, hrange]
  · exact hshape

/-- C1 witness: three distinct perspectives, `iterations = 2`, the first
sub-pipeline faulting; the conclusion holds at these concrete inputs. -/
theorem c1_witness :
    ∃ st' m, deepResearch ["A", "B", "C"] "normal" 2 netFail0 st0
        = (Except.ok m, st') ∧
      m.map Prod.fst
        = (["A", "B", "C"] : List String).take
            (min (["A", "B", "C"] : List String).length 2) ∧
      ∀ kv ∈ m, kv.2.error = none ∨
        ∃ e, kv.2.error = some e ∧ e ≠ "" ∧ kv.2.initial_research = "" ∧
          kv.2.critical_analysis = "" ∧ kv.2.identified_gaps = ""
          ∧ kv.2.synthesis = "" :=
  c1_deep_research_isolation st0 ["A", "B", "C"] "normal" 2 netFail0 rfl
    (by decide)

theorem specDropWs_eq : ∀ cs : List Char,
    specDropWs cs = cs.dropWhile Char.isWhitespace := by
  intro cs
  induction cs with
  | nil => rfl
  | cons c rest ih =>
      simp only [specDropWs, List.dropWhile_cons]
      split
      · exact ih
      · rfl

theorem specAfterDigits_eq : ∀ cs : List Char,
    specAfterDigits cs
      = (if (cs.takeWhile Char.isDigit).isEmpty then none
         else some (cs.dropWhile Char.isDigit)) := by
  intro cs
  induction cs with
  | nil => rfl
  | cons c rest ih =>
      simp only [specAfterDigits, List.takeWhile_cons, List.dropWhile_cons]
      by_cases h : c.isDigit = true
      · rw [if_pos h, ih]
        simp only [if_pos h, List.isEmpty_cons, Bool.false_eq_true, if_false]
        by_cases h2 : (rest.takeWhile Char.isDigit).isEmpty = true
        · rw [if_pos h2]
          cases rest with
          | nil => rfl
          | cons d r2 =>
              have hd : ¬ (d.isDigit = true) := by
                intro hdd
                rw [List.takeWhile_cons, if_pos hdd] at h2
                simp at h2
              rw [List.dropWhile_cons, if_neg hd]
        · rw [if_neg h2]
      · rw [if_neg h]
        simp [if_neg h]

theorem specNumbered_false_eq : ∀ cs : List Char,
    specNumbered false cs = numberedRest cs := by
  intro cs
  unfold specNumbered numberedRest
  rw [specAfterDigits_eq]
  by_cases h : ((cs.takeWhile Char.isDigit).isEmpty : Bool) = true
  · rw [if_pos h, if_pos h]
  · rw [if_neg h, if_neg h]
    cases hrest : cs.dropWhile Char.isDigit with
    | nil => rfl
    | cons c rest' =>
        simp only []
        by_cases hdelim : c = '.' ∨ c = ')'
        · rw [if_pos hdelim, if_pos hdelim]
          cases rest' with
          | nil => rfl
          | cons d r2 =>
              simp only [Bool.false_and, Bool.false_eq_true, if_false]
              rw [specDropWs_eq]
        · rw [if_neg hdelim, if_neg hdelim]

theorem foldl_step_cons_done (cs : List Char) : ∀ (x : List Char)
    (d : List (List Char)) (cur : List Char) (pend : Nat),
    List.foldl specParaStep (x :: d, cur, pend) cs
      = (x :: (List.foldl specParaStep (d, cur, pend) cs).1,
         (List.foldl specParaStep (d, cur, pend) cs).2) := by
  induction cs with
  | nil =>
      intro x d cur pend
      rfl
  | cons c rest ih =>
      intro x d cur pend
      simp only [List.foldl_cons]
      by_cases hc : c = '\n'
      · rw [show specParaStep (x :: d, cur, pend) c = (x :: d, cur, pend + 1) from by
          simp only [specParaStep]
          rw [if_pos hc]]
        rw [show specParaStep (d, cur, pend) c = (d, cur, pend + 1) from by
          simp only [specParaStep]
          rw [if_pos hc]]
        exact ih x d cur (pend + 1)
      · by_cases hp : 2 ≤ pend
        · rw [show specParaStep (x :: d, cur, pend) c
              = (x :: (d ++ [cur.reverse]), [c], 0) from by
            simp only [specParaStep]
            rw [if_neg hc, if_pos hp]
            rfl]
          rw [show specParaStep (d, cur, pend) c = (d ++ [cur.reverse], [c], 0) from by
            simp only [specParaStep]
            rw [if_neg hc, if_pos hp]]
          exact ih x (d ++ [cur.reverse]) [c] 0
        · rw [show specParaStep (x :: d, cur, pend) c
              = (x :: d, c :: (List.replicate pend '\n' ++ cur), 0) from by
            simp only [specParaStep]
            rw [if_neg hc, if_neg hp]]
          rw [show specParaStep (d, cur, pend) c
              = (d, c :: (List.replicate pend '\n' ++ cur), 0) from by
            simp only [specParaStep]
            rw [if_neg hc, if_neg hp]]
          exact ih x d (c :: (List.replicate pend '\n' ++ cur)) 0

theorem finish_cons_done (x : List Char) (d : List (List Char))
    (cur : List Char) (pend : Nat) :
    specParaFinish (x :: d, cur, pend) = x :: specParaFinish (d, cur, pend) := by
  simp only [specParaFinish]
  split <;> rfl

theorem splitParasAux_eq_fold : ∀ (cs acc : List Char) (pend : Nat),
    splitParasAux cs acc pend
      = specParaFinish (List.foldl specParaStep ([], acc, pend) cs) := by
  intro cs
  induction cs with
  | nil =>
      intro acc pend
      simp only [splitParasAux, List.foldl_nil, specParaFinish]
      split <;> rfl
  | cons c rest ih =>
      intro acc pend
      simp only [splitParasAux, List.foldl_cons]
      by_cases hc : c = '\n'
      · rw [if_pos hc]
        rw [show specParaStep ([], acc, pend) c = ([], acc, pend + 1) from by
          simp only [specParaStep]
          rw [if_pos hc]]
        exact ih acc (pend + 1)
      · rw [if_neg hc]
        by_cases hp : 2 ≤ pend
        · rw [if_pos hp]
          rw [show specParaStep ([], acc, pend) c = ([acc.reverse], [c], 0) from by
            simp only [specParaStep]
            rw [if_neg hc, if_pos hp]
            rfl]
          rw [foldl_step_cons_done]
          rcases hF : List.foldl specParaStep ([], [c], 0) rest with ⟨d1, cur1, pend1⟩
          rw [ih [c] 0, hF, finish_cons_done]
        · rw [if_neg hp]
          rw [show specParaStep ([], acc, pend) c
              = ([], c :: (List.replicate pend '\n' ++ acc), 0) from by
            simp only [specParaStep]
            rw [if_neg hc, if_neg hp]]
          exact ih (c :: (List.replicate pend '\n' ++ acc)) 0

theorem splitParas_eq_spec (raw : String) : splitParas raw = specParas raw.data := by
  unfold splitParas specParas
  rw [splitParasAux_eq_fold]

/-- C4 counterexample: the claim's numbered-list pattern has a mandatory
`<whitespace>` component.  On the line `"1.A"` (no whitespace after the
delimiter) the source regex `\s*` still matches and keeps `"A"`, while the
claimed algorithm finds zero matches and falls back to the paragraph path,
yielding `["1.A"]`. -/
theorem c4_counterexample :
    parsePerspectives "1.A" = ["A"] ∧
    parsePerspectivesSpecModel true "1.A" = ["1.A"] ∧
    (["A"] : List String) ≠ ["1.A"] := by
  exact ⟨rfl, rfl, by decide⟩

/-- C4 (amended): `parsePerspectives` implements the claimed algorithm with
the whitespace after the `.`/`)` delimiter optional rather than mandatory:
it coincides everywhere with the spec-worded parser whose pattern is
`<digits><"." or ")"><optional whitespace><rest>`, and both of the claim's
concrete examples hold. -/
theorem c4_parser_algorithm :
    (∀ raw : String, parsePerspectives raw = parsePerspectivesSpecModel false raw) ∧
    parsePerspectives "1. A: x\n2. B: y" = ["A: x", "B: y"] ∧
    parsePerspectives "Paragraph one.\n\nParagraph two."
      = ["Paragraph one.", "Paragraph two."] := by
  refine ⟨?_, rfl, rfl⟩
  intro raw
  unfold parsePerspectives parsePerspectivesSpecModel
  simp only [specNumbered_false_eq, splitParas_eq_spec]

end ResearchTool
